import Mathlib

/-!
Verification development for the `data-engineering` research pipeline.

The development shallowly embeds the two Python modules of the repository:

* `research-pipeline/data/create_universe.py` — point-in-time universe
  construction (namespace `CreateUniverse`);
* `research-pipeline/main_pipeline.py` — tiered cache, per-asset
  fetch-merge orchestration and final dataset assembly (namespace
  `MainPipeline`).

Dates are encoded as natural numbers `YYYYMMDD` (day granularity) and
`YYYYMM` (month granularity); `monthOf d = d / 100` recovers the month of a
day, matching `pandas.Series.dt.to_period('M')`, because a day-of-month is
always between 1 and 31 < 100.  Market caps, prices and the other numeric
cells are embedded as rationals.  Asset ids are strings, ordered by the
lexicographic (code-point) order on their character lists, which is the
order `pandas` uses when sorting string group keys.
-/

namespace CreateUniverse

/-- `START_DATE = '2022-01-01'` of `create_universe.py`, in `YYYYMMDD`. -/
def START_DATE : Nat := 20220101

/-- `UNIVERSE_SIZE = 200` of `create_universe.py`. -/
def UNIVERSE_SIZE : Nat := 200

/-- One row of the concatenated market-cap history `master_df`
(`date`, `coin_id`, `market_cap`); a `none` market cap is a NaN cell,
removed by `dropna(subset=['market_cap'])`. -/
structure McapRow where
  date : Nat
  coin_id : String
  market_cap : Option ℚ
  deriving DecidableEq, Repr

/-- `df['date'].dt.to_period('M')` on the `YYYYMMDD` encoding. -/
def monthOf (d : Nat) : Nat := d / 100

/-- The largest encoded day that can belong to month `m`: every date `d`
with `monthOf d = m` satisfies `d ≤ monthEnd m`. -/
def monthEnd (m : Nat) : Nat := m * 100 + 99

/-- The row filter of lines 106–107 of `create_universe.py`:
`master_df['date'] >= START_DATE` and `dropna(subset=['market_cap'])`. -/
def validRow (r : McapRow) : Bool :=
  decide (START_DATE ≤ r.date) && r.market_cap.isSome

/-- The month-`m` slice of the filtered `master_df`: the rows that feed the
`(month, coin_id)` groups of month `m` in line 111. -/
def monthRows (rows : List McapRow) (m : Nat) : List McapRow :=
  rows.filter (fun r => validRow r && (monthOf r.date == m))

/-- Lexicographic (code-point) order on strings, as `pandas` sorts string
group keys. -/
def strLe (a b : String) : Prop := a.data ≤ b.data

/-- Strict lexicographic (code-point) order on strings. -/
def strLt (a b : String) : Prop := a.data < b.data

instance : DecidableRel strLe := fun a b => inferInstanceAs (Decidable (a.data ≤ b.data))

instance : DecidableRel strLt := fun a b => inferInstanceAs (Decidable (a.data < b.data))

instance : IsTotal String strLe := ⟨fun a b => le_total a.data b.data⟩

instance : IsTrans String strLe := ⟨fun _ _ _ h h' => le_trans h h'⟩

/-- Distinct coin ids of a month, in ascending lexicographic order: the
order in which `groupby(['month','coin_id'], sort=True)` (line 111) lists
the coins of one month. -/
def sortedCoins (mrows : List McapRow) : List String :=
  List.insertionSort strLe ((mrows.map McapRow.coin_id).dedup)

/-- The (non-NaN) market-cap values of coin `c` inside a month slice. -/
def mcapVals (mrows : List McapRow) (c : String) : List ℚ :=
  (mrows.filter (fun r => r.coin_id == c)).map (fun r => r.market_cap.getD 0)

/-- `groupby(['month','coin_id'])['market_cap'].mean()` for one key. -/
def avgOf (mrows : List McapRow) (c : String) : ℚ :=
  (mcapVals mrows c).sum / (mcapVals mrows c).length

/-- `rank(method='first', ascending=False)` (line 114) of the value at
position `i` of `vals`: one plus the number of positions holding a strictly
larger value, plus the number of earlier positions holding an equal value
(equal values are ranked in order of appearance). -/
def rankFirstDesc (vals : List ℚ) (i : Nat) : Nat :=
  1 + vals.enum.countP (fun jw =>
    decide (vals.getD i 0 < jw.2) || (decide (jw.2 = vals.getD i 0) && decide (jw.1 < i)))

/-- Lines 109–125 of `create_universe.py` for the rows of a single month:
list the month's coins in the `groupby` key order (ascending lexicographic),
rank them by monthly average market cap with the first-occurrence tie-break,
and keep those of rank at most `UNIVERSE_SIZE`, in frame order.  The flat
`monthly_avg_mcap` frame is sorted by `(month, coin_id)`, ranking uses only
the rows of one month (`groupby('month')`), and the final
`groupby('month')` listing preserves frame order, so the source pipeline
factors month by month into exactly this computation. -/
def universeOfMonthRows (mrows : List McapRow) : List String :=
  let coins := sortedCoins mrows
  let vals := coins.map (avgOf mrows)
  (coins.enum.filter (fun ic => decide (rankFirstDesc vals ic.1 ≤ UNIVERSE_SIZE))).map
    (fun ic => ic.2)

/-- The `point_in_time_universe` entry of month `m` (lines 104–125). -/
def universeForMonth (rows : List McapRow) (m : Nat) : List String :=
  universeOfMonthRows (monthRows rows m)

/-- The months appearing in the output dictionary: the months of the
filtered `master_df` (every nonempty month contributes a rank-1 coin, hence
a `top_n_df` group), ascending as `groupby` sorts them. -/
def monthsOf (rows : List McapRow) : List Nat :=
  List.insertionSort (· ≤ ·) (((rows.filter validRow).map (fun r => monthOf r.date)).dedup)

/-- The full `point_in_time_universe` artifact, keyed by month. -/
def point_in_time_universe (rows : List McapRow) : List (Nat × List String) :=
  (monthsOf rows).map (fun m => (m, universeForMonth rows m))

/-- The rank that line 114 assigns to coin `c` in month `m`: the
first-method descending rank of its monthly average, taken at the position
`c` occupies in the month's sorted coin list. -/
def coinRankInMonth (rows : List McapRow) (m : Nat) (c : String) : Nat :=
  let mrows := monthRows rows m
  let coins := sortedCoins mrows
  rankFirstDesc (coins.map (avgOf mrows)) (List.indexOf c coins)

/-- A row of month `m` is dated at most `monthEnd m`, so the month-`m`
slice of a row list is already determined by the rows dated `≤ monthEnd m`. -/
theorem monthRows_filter_le (rows : List McapRow) (m : Nat) :
    monthRows rows m =
      monthRows (rows.filter (fun r => decide (r.date ≤ monthEnd m))) m := by
  unfold monthRows
  rw [List.filter_filter]
  refine List.filter_congr ?_
  intro r _
  by_cases hm : monthOf r.date = m
  · have hle : r.date ≤ monthEnd m := by
      unfold monthOf at hm
      unfold monthEnd
      omega
    simp [hle]
  · simp [hm]

/-- The month's coin list is sorted by `strLe`. -/
theorem sortedCoins_sorted (mrows : List McapRow) :
    (sortedCoins mrows).Sorted strLe :=
  List.sorted_insertionSort strLe _

/-- The month's coin list has no duplicates. -/
theorem sortedCoins_nodup (mrows : List McapRow) :
    (sortedCoins mrows).Nodup :=
  ((List.perm_insertionSort strLe _).nodup_iff).mpr (List.nodup_dedup _)

/-- The month's coin list is strictly sorted by the lexicographic order. -/
theorem sortedCoins_sorted_lt (mrows : List McapRow) :
    (sortedCoins mrows).Sorted strLt := by
  have h := (sortedCoins_sorted mrows).and (sortedCoins_nodup mrows)
  refine h.imp ?_
  rintro a b ⟨hle, hne⟩
  exact lt_of_le_of_ne hle (fun hd => hne (String.ext hd))

/-- If `p` implies `q` on `l` and some element of `l` satisfies `q` but not
`p`, then `q` counts strictly more elements than `p`. -/
theorem countP_lt_of_witness {α : Type} {p q : α → Bool} {l : List α}
    (himp : ∀ x ∈ l, p x = true → q x = true)
    {x : α} (hx : x ∈ l) (hq : q x = true) (hp : p x = false) :
    l.countP p < l.countP q := by
  induction l with
  | nil => cases hx
  | cons a t ih =>
    rw [List.countP_cons, List.countP_cons]
    rcases List.mem_cons.mp hx with rfl | hxt
    · have hle : t.countP p ≤ t.countP q :=
        List.countP_mono_left (fun y hy => himp y (List.mem_cons_of_mem _ hy))
      rw [hp, hq]
      simp only [if_true, if_false, Bool.false_eq_true]
      omega
    · have hlt := ih (fun y hy => himp y (List.mem_cons_of_mem _ hy)) hxt
      by_cases ha : p a = true
      · rw [ha, himp a (List.mem_cons_self a t) ha]
        omega
      · rw [Bool.not_eq_true] at ha
        rw [ha]
        simp only [Bool.false_eq_true, if_false]
        split <;> omega

/-- The first-occurrence tie-break of `rank(method='first',
ascending=False)`: among equal values, an earlier position gets a strictly
smaller (better) rank. -/
theorem rankFirstDesc_lt_of_eq {vals : List ℚ} {i j : Nat} (hij : i < j)
    (hj : j < vals.length) (heq : vals.getD i 0 = vals.getD j 0) :
    rankFirstDesc vals i < rankFirstDesc vals j := by
  unfold rankFirstDesc
  have hi : i < vals.length := lt_trans hij hj
  have key : vals.enum.countP (fun jw =>
        decide (vals.getD i 0 < jw.2) || (decide (jw.2 = vals.getD i 0) && decide (jw.1 < i)))
      < vals.enum.countP (fun jw =>
        decide (vals.getD j 0 < jw.2) || (decide (jw.2 = vals.getD j 0) && decide (jw.1 < j))) := by
    refine countP_lt_of_witness (x := (i, vals.getD i 0)) ?_ ?_ ?_ ?_
    · rintro ⟨k, w⟩ _ hpk
      simp only [Bool.or_eq_true, Bool.and_eq_true, decide_eq_true_eq] at hpk ⊢
      rcases hpk with hgt | ⟨hweq, hki⟩
      · left; rw [← heq]; exact hgt
      · right; exact ⟨by rw [← heq]; exact hweq, lt_trans hki hij⟩
    · have hlen : i < vals.enum.length := by simpa using hi
      have hgd : vals.getD i 0 = vals[i] := List.getD_eq_getElem vals 0 hi
      have henum : vals.enum[i] = (i, vals[i]) := List.getElem_enum vals i hlen
      rw [hgd, ← henum]
      exact List.getElem_mem _
    · simp only [Bool.or_eq_true, Bool.and_eq_true, decide_eq_true_eq]
      right
      exact ⟨heq, hij⟩
    · have h1 : ¬ (vals.getD i 0 < vals.getD i 0) := lt_irrefl _
      have h2 : ¬ (i < i) := lt_irrefl _
      simp [h1, h2]
  omega

end CreateUniverse

/-- C1 — No look-ahead: for a fixed period `P`, the universe snapshot
computed for `P` is unchanged under any addition or mutation of market-cap
data dated after the end of `P`: two runs of the universe-construction
function on inputs agreeing on all rows dated `≤ monthEnd P` produce the
same snapshot for `P` (membership and ranking for `P` use only rows whose
date lies within `P`). -/
theorem c1_no_lookahead (rows1 rows2 : List CreateUniverse.McapRow) (P : Nat)
    (h : rows1.filter (fun r => decide (r.date ≤ CreateUniverse.monthEnd P)) =
         rows2.filter (fun r => decide (r.date ≤ CreateUniverse.monthEnd P))) :
    CreateUniverse.universeForMonth rows1 P = CreateUniverse.universeForMonth rows2 P := by
  unfold CreateUniverse.universeForMonth
  rw [CreateUniverse.monthRows_filter_le rows1 P, CreateUniverse.monthRows_filter_le rows2 P, h]

/-- Concrete inputs for the C1 witness: the second run adds a row dated
2023-01-01, after the end of period 2022-01. -/
def c1rowsA : List CreateUniverse.McapRow :=
  [⟨20220105, "aaa", some 5⟩, ⟨20230101, "zzz", some 9⟩]

/-- The C1 witness input without the future-dated row. -/
def c1rowsB : List CreateUniverse.McapRow :=
  [⟨20220105, "aaa", some 5⟩]

/-- Witness for C1 at a concrete input: the two inputs agree on rows dated
up to the end of 2022-01, so the 2022-01 snapshots coincide. -/
theorem c1_no_lookahead_witness :
    (c1rowsA.filter (fun r => decide (r.date ≤ CreateUniverse.monthEnd 202201)) =
      c1rowsB.filter (fun r => decide (r.date ≤ CreateUniverse.monthEnd 202201))) ∧
    CreateUniverse.universeForMonth c1rowsA 202201 =
      CreateUniverse.universeForMonth c1rowsB 202201 :=
  ⟨by decide, c1_no_lookahead c1rowsA c1rowsB 202201 (by decide)⟩

/-- C9 — Snapshot list order: for every month, the emitted universe list is
in strictly ascending lexicographic order of asset id (the order induced by
the sorted `(month, coin_id)` group keys), not in rank or market-cap order;
in particular any two assets of one month's list appear alphabetically
regardless of their ranks. -/
theorem c9_snapshot_sorted (rows : List CreateUniverse.McapRow) (m : Nat) :
    (CreateUniverse.universeForMonth rows m).Sorted CreateUniverse.strLt := by
  unfold CreateUniverse.universeForMonth CreateUniverse.universeOfMonthRows
  set mrows := CreateUniverse.monthRows rows m
  set coins := CreateUniverse.sortedCoins mrows with hcoins
  have h1 : (coins.enum.filter (fun ic =>
      decide (CreateUniverse.rankFirstDesc (coins.map (CreateUniverse.avgOf mrows)) ic.1 ≤
        CreateUniverse.UNIVERSE_SIZE))).Sublist coins.enum := List.filter_sublist _
  have h2 := h1.map Prod.snd
  rw [List.enum_map_snd] at h2
  exact List.Pairwise.sublist h2 (CreateUniverse.sortedCoins_sorted_lt mrows)

/-- Concrete input refuting the input-order tie-break of C3: coin `"b"`
appears first in the input (candidate-fetch) order, coin `"a"` second; both
have monthly average market cap 100 in 2022-01. -/
def c3rows : List CreateUniverse.McapRow :=
  [⟨20220105, "b", some 100⟩, ⟨20220106, "a", some 100⟩]

/-- The month slice of the C3 input is the whole input. -/
theorem c3rows_monthRows : CreateUniverse.monthRows c3rows 202201 = c3rows := by decide

/-- Both C3 coins average to 100 over 2022-01. -/
theorem c3rows_avg :
    CreateUniverse.avgOf (CreateUniverse.monthRows c3rows 202201) "a" = 100 ∧
    CreateUniverse.avgOf (CreateUniverse.monthRows c3rows 202201) "b" = 100 := by
  rw [c3rows_monthRows]
  unfold CreateUniverse.avgOf
  have ha : CreateUniverse.mcapVals c3rows "a" = [100] := by decide
  have hb : CreateUniverse.mcapVals c3rows "b" = [100] := by decide
  rw [ha, hb]
  norm_num

/-- Counterexample to C3 as stated: in `c3rows` the two coins tie on the
2022-01 average market cap and `"b"` appears first in input order, yet the
code ranks `"a"` (alphabetically first) 1 and `"b"` 2, because
`groupby(['month','coin_id'])` sorts the group keys before
`rank(method='first')` is applied — the tie-break is lexicographic coin-id
order, not input order. -/
theorem c3_tiebreak_counterexample :
    CreateUniverse.avgOf (CreateUniverse.monthRows c3rows 202201) "b" =
      CreateUniverse.avgOf (CreateUniverse.monthRows c3rows 202201) "a" ∧
    c3rows.map CreateUniverse.McapRow.coin_id = ["b", "a"] ∧
    CreateUniverse.coinRankInMonth c3rows 202201 "a" = 1 ∧
    CreateUniverse.coinRankInMonth c3rows 202201 "b" = 2 := by
  obtain ⟨ha, hb⟩ := c3rows_avg
  have hcoins : CreateUniverse.sortedCoins c3rows = ["a", "b"] := by decide
  refine ⟨by rw [ha, hb], by decide, ?_, ?_⟩ <;>
  · rw [c3rows_monthRows] at ha hb
    simp only [CreateUniverse.coinRankInMonth, c3rows_monthRows, hcoins,
      List.map_cons, List.map_nil, ha, hb]
    decide

/-- C3 (amended) — Deterministic ranking tie-break: within every month the
code ranks descending by monthly average market cap, and a tie between two
assets is broken by ascending lexicographic order of the asset id (the
position in the sorted `groupby(['month','coin_id'])` key order), not by
input order; the result is still deterministic and reproducible, since the
ranking is a pure function of the input rows. -/
theorem c3_tiebreak_amended (rows : List CreateUniverse.McapRow) (m : Nat)
    (c₁ c₂ : String)
    (h1 : c₁ ∈ CreateUniverse.sortedCoins (CreateUniverse.monthRows rows m))
    (h2 : c₂ ∈ CreateUniverse.sortedCoins (CreateUniverse.monthRows rows m))
    (hlt : CreateUniverse.strLt c₁ c₂)
    (heq : CreateUniverse.avgOf (CreateUniverse.monthRows rows m) c₁ =
           CreateUniverse.avgOf (CreateUniverse.monthRows rows m) c₂) :
    CreateUniverse.coinRankInMonth rows m c₁ < CreateUniverse.coinRankInMonth rows m c₂ := by
  have key : ∀ (coins : List String) (f : String → ℚ),
      coins.Sorted CreateUniverse.strLt → c₁ ∈ coins → c₂ ∈ coins → f c₁ = f c₂ →
      CreateUniverse.rankFirstDesc (coins.map f) (List.indexOf c₁ coins) <
        CreateUniverse.rankFirstDesc (coins.map f) (List.indexOf c₂ coins) := by
    intro coins f hs hm1 hm2 hfeq
    have hi : List.indexOf c₁ coins < coins.length := List.indexOf_lt_length.mpr hm1
    have hj : List.indexOf c₂ coins < coins.length := List.indexOf_lt_length.mpr hm2
    have hg1 : coins[List.indexOf c₁ coins] = c₁ := List.getElem_indexOf hi
    have hg2 : coins[List.indexOf c₂ coins] = c₂ := List.getElem_indexOf hj
    have hij : List.indexOf c₁ coins < List.indexOf c₂ coins := by
      rcases lt_trichotomy (List.indexOf c₁ coins) (List.indexOf c₂ coins) with h | h | h
      · exact h
      · exfalso
        have hc : c₁ = c₂ := (List.indexOf_inj hm1 hm2).mp h
        rw [hc] at hlt
        exact lt_irrefl _ hlt
      · exfalso
        have hrel := hs.rel_get_of_lt (a := ⟨List.indexOf c₂ coins, hj⟩)
          (b := ⟨List.indexOf c₁ coins, hi⟩) h
        rw [List.get_eq_getElem, List.get_eq_getElem] at hrel
        simp only [hg1, hg2] at hrel
        exact lt_asymm hlt hrel
    have hjv : List.indexOf c₂ coins < (coins.map f).length := by
      rw [List.length_map]; exact hj
    have hiv : List.indexOf c₁ coins < (coins.map f).length := by
      rw [List.length_map]; exact hi
    have hv1 : (coins.map f).getD (List.indexOf c₁ coins) 0 = f c₁ := by
      rw [List.getD_eq_getElem _ 0 hiv, List.getElem_map, hg1]
    have hv2 : (coins.map f).getD (List.indexOf c₂ coins) 0 = f c₂ := by
      rw [List.getD_eq_getElem _ 0 hjv, List.getElem_map, hg2]
    exact CreateUniverse.rankFirstDesc_lt_of_eq hij hjv (by rw [hv1, hv2]; exact hfeq)
  exact key (CreateUniverse.sortedCoins (CreateUniverse.monthRows rows m))
    (CreateUniverse.avgOf (CreateUniverse.monthRows rows m))
    (CreateUniverse.sortedCoins_sorted_lt _) h1 h2 heq

/-- Witness for the amended C3 at the concrete input `c3rows`: `"a"` is
lexicographically before `"b"`, the averages tie, and the rank of `"a"` is
strictly better. -/
theorem c3_tiebreak_amended_witness :
    CreateUniverse.strLt "a" "b" ∧
    CreateUniverse.coinRankInMonth c3rows 202201 "a" <
      CreateUniverse.coinRankInMonth c3rows 202201 "b" :=
  ⟨by decide,
    c3_tiebreak_amended c3rows 202201 "a" "b" (by decide) (by decide) (by decide)
      (by obtain ⟨ha, hb⟩ := c3rows_avg; rw [ha, hb])⟩

namespace MainPipeline

/-- One cell of a pandas frame: numeric, string, or NaN. -/
inductive CellVal where
  | num (q : ℚ)
  | str (s : String)
  | na
  deriving DecidableEq, Repr

/-- A pandas DataFrame: the ordered column list, plus one association list
of named cells per row.  A column name absent from a row's association list
reads as NaN, which is how `pd.concat` aligns frames with different column
sets. -/
structure Frame where
  cols : List String
  rows : List (List (String × CellVal))
  deriving DecidableEq, Repr

/-- `pd.DataFrame()`: no columns, no rows. -/
def Frame.empty : Frame := ⟨[], []⟩

/-- Reading the cell of column `c` from one row (NaN when absent). -/
def cellOf (row : List (String × CellVal)) (c : String) : CellVal :=
  (row.lookup c).getD .na

/-- A cache payload: a DataFrame, or a JSON-serializable object (the
reference maps are dictionaries from string to string). -/
inductive Payload where
  | table (f : Frame)
  | struct (m : List (String × String))
  deriving DecidableEq, Repr

/-- The bytes of one cached file: Parquet-encoded frame or JSON text. -/
inductive FileData where
  | parquetFile (f : Frame)
  | jsonFile (m : List (String × String))
  deriving DecidableEq, Repr

/-- The serialization in `GCSCachingManager.set`: `isinstance(data,
pd.DataFrame)` picks Parquet (`to_parquet`), everything else JSON
(`json.dump`) — the format is chosen by the payload kind, not by the key. -/
def serialize : Payload → FileData
  | .table f => .parquetFile f
  | .struct m => .jsonFile m

/-- The two tiers: the local cache directory and the GCS bucket, each a
path → file-content map (an association list in which an overwrite shadows
the older entry). -/
structure CacheState where
  localFiles : List (String × FileData)
  gcsBlobs : List (String × FileData)
  deriving DecidableEq, Repr

/-- `str.endswith` on the character lists. -/
def endsWithStr (s suf : String) : Bool := List.isSuffixOf suf.data s.data

/-- Whether the call into the Python function raised to its caller. -/
inductive CallResult where
  | ok
  | raised
  deriving DecidableEq, Repr

/-- `GCSCachingManager._load_from_local`: dispatches on the file-name
extension — `read_parquet` for `*.parquet`, `json.load` for `*.json`,
and `None` otherwise; a parse failure (wrong format under the extension)
is caught and becomes `None`. -/
def load_from_local (local_path : String) (fd : FileData) : Option Payload :=
  if endsWithStr local_path ".parquet" then
    match fd with
    | .parquetFile f => some (.table f)
    | .jsonFile _ => none
  else if endsWithStr local_path ".json" then
    match fd with
    | .jsonFile m => some (.struct m)
    | .parquetFile _ => none
  else none

/-- `GCSCachingManager.get`: local tier first; on a local miss, the GCS
blob is downloaded into the local tier (tier promotion) and loaded from
there; a full miss returns `none` with the state untouched. -/
def GCSCachingManager.get (s : CacheState) (file_name : String) :
    Option Payload × CacheState :=
  match s.localFiles.lookup file_name with
  | some fd => (load_from_local file_name fd, s)
  | none =>
    match s.gcsBlobs.lookup file_name with
    | some fd =>
      (load_from_local file_name fd,
        { s with localFiles := (file_name, fd) :: s.localFiles })
    | none => (none, s)

/-- `GCSCachingManager.set`: one `try` block wraps the local write and the
GCS upload; any exception from either step is caught and reported as a
warning, and the call returns normally.  `localOk` (resp. `remoteOk`) is
false when the local serialization (resp. the GCS upload) raises: a failed
local write leaves the state untouched and skips the upload; a failed
upload keeps the already-performed local write. -/
def GCSCachingManager.set (s : CacheState) (file_name : String) (data : Payload)
    (localOk remoteOk : Bool) : CacheState × CallResult :=
  if localOk then
    let s1 : CacheState := { s with localFiles := (file_name, serialize data) :: s.localFiles }
    if remoteOk then
      ({ s1 with gcsBlobs := (file_name, serialize data) :: s1.gcsBlobs }, .ok)
    else (s1, .ok)
  else (s, .ok)

/-- Whether the key's extension matches the serialization format chosen for
the payload kind: `*.parquet` for tabular payloads, `*.json` for
structured-text payloads — the naming convention every key of the pipeline
follows (`coin_history/{id}.parquet`, `maps/*.json`). -/
def formatMatches (file_name : String) : Payload → Bool
  | .table _ => endsWithStr file_name ".parquet"
  | .struct _ => endsWithStr file_name ".json"

/-- A key ending in `.json` does not end in `.parquet` (two suffixes of one
string are suffixes of one another, and neither literal is a suffix of the
other). -/
theorem not_parquet_of_json {K : String} (h : endsWithStr K ".json" = true) :
    endsWithStr K ".parquet" = false := by
  unfold endsWithStr at *
  by_contra hp
  rw [Bool.not_eq_false] at hp
  have h1 : ".json".data <:+ K.data := List.isSuffixOf_iff_suffix.mp h
  have h2 : ".parquet".data <:+ K.data := List.isSuffixOf_iff_suffix.mp hp
  rcases List.suffix_or_suffix_of_suffix h1 h2 with hc | hc
  · exact absurd hc (by decide)
  · exact absurd hc (by decide)

/-- Loading a freshly serialized payload from a key whose extension matches
the payload kind returns the payload. -/
theorem load_serialize (K : String) (x : Payload) (h : formatMatches K x = true) :
    load_from_local K (serialize x) = some x := by
  cases x with
  | table f =>
    have hp : endsWithStr K ".parquet" = true := h
    simp [serialize, load_from_local, hp]
  | struct m =>
    have hj : endsWithStr K ".json" = true := h
    have hp := not_parquet_of_json hj
    simp [serialize, load_from_local, hj, hp]

end MainPipeline

/-- Counterexample to C4 as stated: for the key `"k"` — which carries
neither a `.parquet` nor a `.json` extension — and a structured payload,
`get` immediately after `set(k, x)` returns `None` instead of `x`:
`set` serializes by payload kind, but `_load_from_local` deserializes by
file extension and falls through to `None` for any other key, so the
round trip claimed for *every* key and payload fails. -/
theorem c4_roundtrip_counterexample :
    (MainPipeline.GCSCachingManager.get
      (MainPipeline.GCSCachingManager.set ⟨[], []⟩ "k"
        (MainPipeline.Payload.struct [("uniswap", "uniswap-slug")]) true true).1 "k").1 = none := by
  decide

/-- C4 (amended) — Cache round-trip: for every cache state, key and payload
whose key extension matches the payload kind (`*.parquet` for tabular,
`*.json` for structured text — the convention all pipeline keys follow),
`get(K)` immediately after `set(K, x)` returns data equal to `x`, the
serialization format being chosen by the payload kind. -/
theorem c4_roundtrip_amended (s : MainPipeline.CacheState) (K : String)
    (x : MainPipeline.Payload) (h : MainPipeline.formatMatches K x = true) :
    (MainPipeline.GCSCachingManager.get
      (MainPipeline.GCSCachingManager.set s K x true true).1 K).1 = some x := by
  simp [MainPipeline.GCSCachingManager.set, MainPipeline.GCSCachingManager.get,
    MainPipeline.load_serialize K x h]

/-- Witness for the amended C4 at a concrete input: a tabular payload under
a `.parquet` key round-trips. -/
theorem c4_roundtrip_amended_witness :
    MainPipeline.formatMatches "coin_history/bitcoin.parquet"
      (MainPipeline.Payload.table MainPipeline.Frame.empty) = true ∧
    (MainPipeline.GCSCachingManager.get
      (MainPipeline.GCSCachingManager.set ⟨[], []⟩ "coin_history/bitcoin.parquet"
        (MainPipeline.Payload.table MainPipeline.Frame.empty) true true).1
      "coin_history/bitcoin.parquet").1 =
      some (MainPipeline.Payload.table MainPipeline.Frame.empty) :=
  ⟨by decide, c4_roundtrip_amended ⟨[], []⟩ "coin_history/bitcoin.parquet"
    (MainPipeline.Payload.table MainPipeline.Frame.empty) (by decide)⟩

/-- Counterexample to C5 as stated: when the local write raises (disk
error), `set` neither persists the payload locally nor fails the operation:
the single `try/except` around both the local write and the upload catches
the exception, prints a warning, and returns normally with the state
untouched — the local-write failure *is* silently absorbed. -/
theorem c5_localwrite_counterexample :
    MainPipeline.GCSCachingManager.set ⟨[], []⟩ "maps/llama_protocol_map.json"
        (MainPipeline.Payload.struct [("uniswap", "uniswap-slug")]) false true =
      (⟨[], []⟩, MainPipeline.CallResult.ok) := by
  decide

/-- C5 (amended) — Local tier under failures: `set` never fails outright: a
local-write failure is caught, reported as a warning and leaves the cache
unchanged (the upload is skipped); a remote-push failure is likewise caught
as a warning, does not fail the call, and does not invalidate the completed
local write — a subsequent `get` for the same (extension-matching) key
still returns the locally written payload. -/
theorem c5_local_durability_amended (s : MainPipeline.CacheState) (K : String)
    (x : MainPipeline.Payload) (h : MainPipeline.formatMatches K x = true) :
    MainPipeline.GCSCachingManager.set s K x false true = (s, .ok) ∧
    (MainPipeline.GCSCachingManager.set s K x true false).2 = .ok ∧
    (MainPipeline.GCSCachingManager.set s K x true false).1.gcsBlobs = s.gcsBlobs ∧
    (MainPipeline.GCSCachingManager.get
      (MainPipeline.GCSCachingManager.set s K x true false).1 K).1 = some x := by
  refine ⟨by simp [MainPipeline.GCSCachingManager.set], by simp [MainPipeline.GCSCachingManager.set],
    by simp [MainPipeline.GCSCachingManager.set], ?_⟩
  simp [MainPipeline.GCSCachingManager.set, MainPipeline.GCSCachingManager.get,
    MainPipeline.load_serialize K x h]

/-- Witness for the amended C5 at a concrete input: a structured payload
under a `.json` key survives a remote-push failure and is returned by the
subsequent `get`. -/
theorem c5_local_durability_amended_witness :
    MainPipeline.formatMatches "maps/llama_chain_map.json"
      (MainPipeline.Payload.struct [("ethereum", "Ethereum")]) = true ∧
    (MainPipeline.GCSCachingManager.get
      (MainPipeline.GCSCachingManager.set ⟨[], []⟩ "maps/llama_chain_map.json"
        (MainPipeline.Payload.struct [("ethereum", "Ethereum")]) true false).1
      "maps/llama_chain_map.json").1 =
      some (MainPipeline.Payload.struct [("ethereum", "Ethereum")]) :=
  ⟨by decide,
    (c5_local_durability_amended ⟨[], []⟩ "maps/llama_chain_map.json"
      (MainPipeline.Payload.struct [("ethereum", "Ethereum")]) (by decide)).2.2.2⟩

namespace MainPipeline

/-- The dictionary returned by `get_cg_market_data` after the retry loop:
the `market_chart` lists and the OHLC list (empty when the OHLC call failed
but the market chart succeeded, matching `raw_data.get('ohlc', [])`).
Timestamps are already normalized to `YYYYMMDD` dates. -/
structure CGRaw where
  prices : List (Nat × ℚ)
  total_volumes : List (Nat × ℚ)
  market_caps : List (Nat × ℚ)
  ohlc : List (Nat × ℚ × ℚ × ℚ × ℚ)
  deriving DecidableEq, Repr

/-- One record of the LunarCrush `time-series` response; a `none` field is
a key absent from that record (a column exists in the response frame iff
some record carries the key). -/
structure LCRec where
  time : Nat
  galaxy_score : Option ℚ
  alt_rank : Option ℚ
  social_dominance : Option ℚ
  sentiment : Option ℚ
  deriving DecidableEq, Repr

/-- The outcomes of the external calls made on a cache miss for one asset:
`primary` is the `get_cg_market_data` result after the retry policy
(`none` = no usable data); `chainResp` the `/charts/{slug}` records
(`none` = request failed or not ok); `tvlRows` / `dexRows` the outputs of
`_process_protocol_tvl_response` / `_process_dex_volume_response` (empty =
failed request or empty data); `lcResp` the LunarCrush records; `localOk` /
`remoteOk` whether the two cache-write steps succeed. -/
structure FetchEnv where
  primary : Option CGRaw
  chainResp : Option (List (Nat × ℚ))
  tvlRows : List (Nat × ℚ)
  dexRows : List (Nat × ℚ)
  lcResp : Option (List LCRec)
  localOk : Bool
  remoteOk : Bool
  deriving DecidableEq, Repr

/-- Left-merge lookup of a numeric series by date (NaN when absent). -/
def numLookup (l : List (Nat × ℚ)) (d : Nat) : CellVal :=
  match l.find? (fun p => p.1 == d) with
  | some p => .num p.2
  | none => .na

/-- `df['coin_id'].map(ticker_map)`: the ticker cell (NaN when unmapped). -/
def tickerCell (ticker_map : List (String × String)) (coin_id : String) : CellVal :=
  match ticker_map.lookup coin_id with
  | some t => .str t
  | none => .na

/-- An optional number as a cell (NaN when absent). -/
def optNum : Option ℚ → CellVal
  | some q => .num q
  | none => .na

/-- `process_market_data_to_df` of `main_pipeline.py` (lines 156–196):
base frame from `prices`, left-merged with volumes and market caps on the
timestamp, then with OHLC on the date when OHLC data exists; `open`,
`high`, `low` are present only in that case (`existing_cols`). -/
def process_market_data_to_df (raw : Option CGRaw) (coin_id : String)
    (ticker_map : List (String × String)) : Frame :=
  match raw with
  | none => Frame.empty
  | some r =>
    if r.prices.isEmpty then Frame.empty
    else
      let hasOhlc := !r.ohlc.isEmpty
      let cols := ["date", "coin_id", "ticker"] ++
        (if hasOhlc then ["open", "high", "low"] else []) ++
        ["close", "volume", "market_cap"]
      let rows := r.prices.map (fun pc =>
        [("date", CellVal.num (pc.1 : ℚ)), ("coin_id", CellVal.str coin_id),
         ("ticker", tickerCell ticker_map coin_id)] ++
        (if hasOhlc then
          match r.ohlc.find? (fun o => o.1 == pc.1) with
          | some o => [("open", CellVal.num o.2.1), ("high", CellVal.num o.2.2.1),
                       ("low", CellVal.num o.2.2.2.1)]
          | none => [("open", CellVal.na), ("high", CellVal.na), ("low", CellVal.na)]
         else []) ++
        [("close", CellVal.num pc.2), ("volume", numLookup r.total_volumes pc.1),
         ("market_cap", numLookup r.market_caps pc.1)])
      ⟨cols, rows⟩

/-- `process_chain_tvl_to_df` (lines 336–343): empty when the response has
no `totalLiquidityUSD` column (in particular when it has no records),
otherwise the renamed records plus `coin_id` and `ticker`. -/
def process_chain_tvl_to_df (raw : List (Nat × ℚ)) (coin_id : String)
    (ticker_map : List (String × String)) : Frame :=
  if raw.isEmpty then Frame.empty
  else
    ⟨["date", "chain_tvl", "coin_id", "ticker"],
      raw.map (fun p =>
        [("date", CellVal.num (p.1 : ℚ)), ("chain_tvl", CellVal.num p.2),
         ("coin_id", CellVal.str coin_id), ("ticker", tickerCell ticker_map coin_id)])⟩

/-- Join keys of an outer merge, ascending as pandas sorts them. -/
def sortedDates (ds : List Nat) : List Nat :=
  List.insertionSort (· ≤ ·) ds.dedup

/-- `get_and_process_protocol_data` (lines 252–284) after the two parser
calls: empty if both TVL and DEX frames are empty; if exactly one is empty,
the other frame NaN-filled with the missing column; otherwise their outer
merge on `date` — whenever the result is nonempty it carries both
`protocol_tvl` and `dex_volume` columns. -/
def get_and_process_protocol_data (tvlRows dexRows : List (Nat × ℚ)) (coin_id : String)
    (ticker_map : List (String × String)) : Frame :=
  if tvlRows.isEmpty && dexRows.isEmpty then Frame.empty
  else if tvlRows.isEmpty then
    ⟨["date", "dex_volume", "protocol_tvl", "coin_id", "ticker"],
      dexRows.map (fun p =>
        [("date", CellVal.num (p.1 : ℚ)), ("dex_volume", CellVal.num p.2),
         ("protocol_tvl", CellVal.na), ("coin_id", CellVal.str coin_id),
         ("ticker", tickerCell ticker_map coin_id)])⟩
  else if dexRows.isEmpty then
    ⟨["date", "protocol_tvl", "dex_volume", "coin_id", "ticker"],
      tvlRows.map (fun p =>
        [("date", CellVal.num (p.1 : ℚ)), ("protocol_tvl", CellVal.num p.2),
         ("dex_volume", CellVal.na), ("coin_id", CellVal.str coin_id),
         ("ticker", tickerCell ticker_map coin_id)])⟩
  else
    ⟨["date", "protocol_tvl", "dex_volume", "coin_id", "ticker"],
      (sortedDates (tvlRows.map Prod.fst ++ dexRows.map Prod.fst)).map (fun (d : Nat) =>
        [("date", CellVal.num (d : ℚ)), ("protocol_tvl", numLookup tvlRows d),
         ("dex_volume", numLookup dexRows d), ("coin_id", CellVal.str coin_id),
         ("ticker", tickerCell ticker_map coin_id)])⟩

/-- `get_and_process_lunarcrush_data` (lines 287–333): empty for an empty
ticker, a failed request, or no records; otherwise `date`, `coin_id`, and
exactly the `lc_*` columns whose key appears in some record
(`existing_cols`), in the `required_cols` order. -/
def get_and_process_lunarcrush_data (ticker : String) (coin_id : String)
    (lcResp : Option (List LCRec)) : Frame :=
  if ticker == "" then Frame.empty
  else
    match lcResp with
    | none => Frame.empty
    | some recs =>
      if recs.isEmpty then Frame.empty
      else
        let hasG := recs.any (fun t => t.galaxy_score.isSome)
        let hasA := recs.any (fun t => t.alt_rank.isSome)
        let hasS := recs.any (fun t => t.social_dominance.isSome)
        let hasSe := recs.any (fun t => t.sentiment.isSome)
        ⟨["date", "coin_id"] ++ (if hasG then ["lc_galaxy_score"] else []) ++
          (if hasA then ["lc_alt_rank"] else []) ++
          (if hasS then ["lc_social_dominance"] else []) ++
          (if hasSe then ["lc_sentiment"] else []),
          recs.map (fun t =>
            [("date", CellVal.num (t.time : ℚ)), ("coin_id", CellVal.str coin_id)] ++
            (if hasG then [("lc_galaxy_score", optNum t.galaxy_score)] else []) ++
            (if hasA then [("lc_alt_rank", optNum t.alt_rank)] else []) ++
            (if hasS then [("lc_social_dominance", optNum t.social_dominance)] else []) ++
            (if hasSe then [("lc_sentiment", optNum t.sentiment)] else []))⟩

/-- `pd.merge(l, r[keys + newCols], on=keys, how='left')`: each left row
keeps its cells and gains the `newCols` cells of the first right row
agreeing on the join keys (NaN cells when none matches). -/
def leftMerge (l r : Frame) (keys newCols : List String) : Frame :=
  { cols := l.cols ++ newCols,
    rows := l.rows.map (fun lr =>
      match r.rows.find? (fun rr => keys.all (fun k => cellOf lr k == cellOf rr k)) with
      | some rr => lr ++ newCols.map (fun c => (c, cellOf rr c))
      | none => lr ++ newCols.map (fun c => (c, CellVal.na))) }

/-- Step 2a of `fetch_and_cache_coin_history` (lines 403–410): the chain
TVL frame, fetched only when the coin is in the chain map, empty on a
request failure. -/
def chainFrameOf (coin_id : String) (ticker_map llama_chain_map : List (String × String))
    (env : FetchEnv) : Frame :=
  if (llama_chain_map.lookup coin_id).isSome then
    match env.chainResp with
    | some raw => process_chain_tvl_to_df raw coin_id ticker_map
    | none => Frame.empty
  else Frame.empty

/-- Step 2b (lines 412–417): the protocol TVL/DEX frame, fetched only when
the coin maps to a non-empty DeFiLlama slug. -/
def protoFrameOf (coin_id : String) (ticker_map llama_protocol_map : List (String × String))
    (env : FetchEnv) : Frame :=
  match llama_protocol_map.lookup coin_id with
  | some slug =>
    if slug == "" then Frame.empty
    else get_and_process_protocol_data env.tvlRows env.dexRows coin_id ticker_map
  | none => Frame.empty

/-- Step 3 (line 420): the LunarCrush frame for the coin's ticker
(`ticker_map.get(coin_id, '')`). -/
def lcFrameOf (coin_id : String) (ticker_map : List (String × String))
    (env : FetchEnv) : Frame :=
  get_and_process_lunarcrush_data ((ticker_map.lookup coin_id).getD "") coin_id env.lcResp

/-- Step 4 (lines 422–432): the chain, protocol and LunarCrush frames are
left-merged onto the primary frame — each merge happens only when the
secondary frame is nonempty, so an empty secondary source contributes no
columns at all. -/
def mergedFrameOf (coin_id : String)
    (ticker_map llama_protocol_map llama_chain_map : List (String × String))
    (env : FetchEnv) : Frame :=
  let final0 := process_market_data_to_df env.primary coin_id ticker_map
  let chain_tvl_df := chainFrameOf coin_id ticker_map llama_chain_map env
  let protocol_data_df := protoFrameOf coin_id ticker_map llama_protocol_map env
  let lunarcrush_df := lcFrameOf coin_id ticker_map env
  let f1 := if !chain_tvl_df.rows.isEmpty then
      leftMerge final0 chain_tvl_df ["date", "coin_id"] ["chain_tvl"]
    else final0
  let data_columns := ["protocol_tvl", "dex_volume"].filter
    (fun c => protocol_data_df.cols.contains c)
  let f2 := if !protocol_data_df.rows.isEmpty then
      (if !data_columns.isEmpty then
        leftMerge f1 protocol_data_df ["date", "coin_id"] data_columns
       else f1)
    else f1
  if !lunarcrush_df.rows.isEmpty then
    leftMerge f2 lunarcrush_df ["date", "coin_id"]
      (lunarcrush_df.cols.filter (fun c => !(c == "date" || c == "coin_id")))
  else f2

/-- What the orchestrator treats a cached payload as: the cached frame (a
`coin_history/*.parquet` key can only load as a table or miss, so the
structured branch is unreachable there). -/
def Payload.toFrame : Payload → Frame
  | .table f => f
  | .struct _ => Frame.empty

/-- `fetch_and_cache_coin_history` (lines 382–438): cache-check, primary
gate (line 400: return an empty frame before any secondary fetch when the
primary frame is empty), secondary fetch-and-merge, and a cache write only
for a nonempty merged result. -/
def fetch_and_cache_coin_history (coin_id : String)
    (ticker_map llama_protocol_map llama_chain_map : List (String × String))
    (env : FetchEnv) (s : CacheState) : Frame × CacheState :=
  let cache_key := "coin_history/" ++ coin_id ++ ".parquet"
  match GCSCachingManager.get s cache_key with
  | (some p, s1) => (p.toFrame, s1)
  | (none, s1) =>
    if (process_market_data_to_df env.primary coin_id ticker_map).rows.isEmpty then
      (Frame.empty, s1)
    else
      let f3 := mergedFrameOf coin_id ticker_map llama_protocol_map llama_chain_map env
      if f3.rows.isEmpty then (f3, s1)
      else
        (f3, (GCSCachingManager.set s1 cache_key (.table f3) env.localOk env.remoteOk).1)

/-- A nonempty primary frame has exactly the base market columns, with
`open`/`high`/`low` present precisely when OHLC data was available. -/
theorem process_cols_of_nonempty (raw : Option CGRaw) (coin_id : String)
    (tm : List (String × String))
    (h : (process_market_data_to_df raw coin_id tm).rows ≠ []) :
    (process_market_data_to_df raw coin_id tm).cols =
      ["date", "coin_id", "ticker", "close", "volume", "market_cap"] ∨
    (process_market_data_to_df raw coin_id tm).cols =
      ["date", "coin_id", "ticker", "open", "high", "low", "close", "volume", "market_cap"] := by
  unfold process_market_data_to_df at *
  match raw with
  | none => simp [Frame.empty] at h
  | some r =>
    by_cases hp : r.prices.isEmpty = true
    · simp [hp, Frame.empty] at h
    · by_cases ho : r.ohlc.isEmpty = true
      · left
        simp [hp, ho]
      · right
        simp [hp, ho]

/-- A nonempty chain-TVL frame has exactly the four chain columns. -/
theorem chain_cols_of_nonempty (coin_id : String)
    (tm cm : List (String × String)) (env : FetchEnv)
    (h : (chainFrameOf coin_id tm cm env).rows ≠ []) :
    (chainFrameOf coin_id tm cm env).cols = ["date", "chain_tvl", "coin_id", "ticker"] := by
  unfold chainFrameOf at *
  by_cases hm : (cm.lookup coin_id).isSome = true
  · rw [if_pos hm] at h ⊢
    cases henv : env.chainResp with
    | none => rw [henv] at h; simp [Frame.empty] at h
    | some raw =>
      rw [henv] at h
      by_cases hr : raw.isEmpty = true
      · simp [process_chain_tvl_to_df, hr, Frame.empty] at h
      · simp [process_chain_tvl_to_df, hr]
  · rw [if_neg hm] at h
    simp [Frame.empty] at h

/-- A nonempty protocol frame carries both `protocol_tvl` and `dex_volume`
(in one of the two merge-branch orders). -/
theorem proto_cols_of_nonempty (coin_id : String)
    (tm pm : List (String × String)) (env : FetchEnv)
    (h : (protoFrameOf coin_id tm pm env).rows ≠ []) :
    (protoFrameOf coin_id tm pm env).cols =
      ["date", "protocol_tvl", "dex_volume", "coin_id", "ticker"] ∨
    (protoFrameOf coin_id tm pm env).cols =
      ["date", "dex_volume", "protocol_tvl", "coin_id", "ticker"] := by
  unfold protoFrameOf at *
  cases hpm : pm.lookup coin_id with
  | none => rw [hpm] at h; simp [Frame.empty] at h
  | some slug =>
    rw [hpm] at h
    by_cases hs : (slug == "") = true
    · simp [hs, Frame.empty] at h
    · by_cases h1 : (env.tvlRows.isEmpty && env.dexRows.isEmpty) = true
      · simp [hs, get_and_process_protocol_data, h1, Frame.empty] at h
      · by_cases h2 : env.tvlRows.isEmpty = true
        · right
          have hd : env.dexRows ≠ [] := by
            simp [h2] at h1
            exact fun hnil => h1 (by simp [hnil])
          simp [hs, get_and_process_protocol_data, h1, h2, hd]
        · left
          simp only [hs, get_and_process_protocol_data, h1, h2, if_false, eq_false,
            Bool.false_eq_true]
          simp [h2]
          split <;> rfl

/-- Every LunarCrush column is one of the six of the `required_cols` list. -/
theorem lc_cols_sub (coin_id : String) (tm : List (String × String)) (env : FetchEnv) :
    ∀ c ∈ (lcFrameOf coin_id tm env).cols,
      c ∈ ["date", "coin_id", "lc_galaxy_score", "lc_alt_rank",
           "lc_social_dominance", "lc_sentiment"] := by
  unfold lcFrameOf get_and_process_lunarcrush_data
  by_cases ht : (((tm.lookup coin_id).getD "") == "") = true
  · simp [ht, Frame.empty]
  · rw [if_neg ht]
    cases henv : env.lcResp with
    | none => simp [Frame.empty]
    | some recs =>
      by_cases hr : recs.isEmpty = true
      · simp [hr, Frame.empty]
      · intro c hc
        simp only [hr, if_false, eq_false] at hc
        split_ifs at hc <;>
          simp only [List.mem_append, List.mem_cons, List.mem_singleton,
            List.not_mem_nil, or_false, false_or] at hc ⊢ <;> tauto

/-- A LunarCrush frame carrying the galaxy-score column is nonempty. -/
theorem lc_rows_of_galaxy (coin_id : String) (tm : List (String × String)) (env : FetchEnv)
    (h : "lc_galaxy_score" ∈ (lcFrameOf coin_id tm env).cols) :
    (lcFrameOf coin_id tm env).rows ≠ [] := by
  unfold lcFrameOf get_and_process_lunarcrush_data at *
  by_cases ht : (((tm.lookup coin_id).getD "") == "") = true
  · simp [ht, Frame.empty] at h
  · rw [if_neg ht] at h ⊢
    cases henv : env.lcResp with
    | none => rw [henv] at h; simp [Frame.empty] at h
    | some recs =>
      rw [henv] at h
      by_cases hr : recs.isEmpty = true
      · simp [hr, Frame.empty] at h
      · simp only [eq_false hr, if_false, ne_eq, List.map_eq_nil_iff]
        exact fun hn => hr (by simp [hn])

/-- The column list of the merged per-asset frame: the base market columns
followed by, for each secondary source in merge order, its columns when and
only when its frame is nonempty. -/
theorem mergedFrameOf_cols (coin_id : String)
    (tm pm cm : List (String × String)) (env : FetchEnv) :
    (mergedFrameOf coin_id tm pm cm env).cols =
      ((process_market_data_to_df env.primary coin_id tm).cols ++
        (if (chainFrameOf coin_id tm cm env).rows.isEmpty then [] else ["chain_tvl"])) ++
      (if (protoFrameOf coin_id tm pm env).rows.isEmpty then []
       else ["protocol_tvl", "dex_volume"].filter
         (fun c => (protoFrameOf coin_id tm pm env).cols.contains c)) ++
      (if (lcFrameOf coin_id tm env).rows.isEmpty then []
       else (lcFrameOf coin_id tm env).cols.filter
         (fun c => !(c == "date" || c == "coin_id"))) := by
  unfold mergedFrameOf
  by_cases h1 : (chainFrameOf coin_id tm cm env).rows.isEmpty = true <;>
  by_cases h2 : (protoFrameOf coin_id tm pm env).rows.isEmpty = true <;>
  by_cases h3 : (lcFrameOf coin_id tm env).rows.isEmpty = true <;>
  by_cases h4 : "protocol_tvl" ∈ (protoFrameOf coin_id tm pm env).cols <;>
  by_cases h5 : "dex_volume" ∈ (protoFrameOf coin_id tm pm env).cols <;>
    simp [apply_ite Frame.cols, leftMerge, h1, h2, h3, h4, h5, List.isEmpty_iff,
      List.isEmpty_eq_false, List.append_assoc, List.filter_cons, List.filter_nil]

end MainPipeline

/-- C6 — Primary-failure gating: on a cache miss (the key is in neither
tier), if the primary market-data fetch yields no usable data after the
retry policy (the processed primary frame is empty), the orchestrator
returns an empty frame and the cache state unchanged — and since the
conclusion holds for every environment with that primary outcome whatever
its secondary components are, no secondary source (chain TVL, protocol
TVL/DEX, social) is consulted and no cache write happens for the asset. -/
theorem c6_primary_gate (coin_id : String)
    (tm pm cm : List (String × String)) (env : MainPipeline.FetchEnv)
    (s : MainPipeline.CacheState)
    (hl : s.localFiles.lookup ("coin_history/" ++ coin_id ++ ".parquet") = none)
    (hg : s.gcsBlobs.lookup ("coin_history/" ++ coin_id ++ ".parquet") = none)
    (hp : (MainPipeline.process_market_data_to_df env.primary coin_id tm).rows.isEmpty = true) :
    MainPipeline.fetch_and_cache_coin_history coin_id tm pm cm env s =
      (MainPipeline.Frame.empty, s) := by
  unfold MainPipeline.fetch_and_cache_coin_history
  simp [MainPipeline.GCSCachingManager.get, hl, hg, hp]

/-- Witness for C6 at a concrete input: a coin with no primary data on a
full cache miss yields the empty frame and leaves the (empty) cache
untouched. -/
theorem c6_primary_gate_witness :
    (MainPipeline.process_market_data_to_df (none : Option MainPipeline.CGRaw)
      "terra-luna" []).rows.isEmpty = true ∧
    MainPipeline.fetch_and_cache_coin_history "terra-luna" [] [] []
        ⟨none, none, [], [], none, true, true⟩ ⟨[], []⟩ =
      (MainPipeline.Frame.empty, ⟨[], []⟩) :=
  ⟨by decide,
    c6_primary_gate "terra-luna" [] [] [] ⟨none, none, [], [], none, true, true⟩ ⟨[], []⟩
      (by decide) (by decide) (by decide)⟩

/-- The environment of the C7 counterexample: the primary fetch succeeds
with one price row, every secondary source yields nothing. -/
def c7env : MainPipeline.FetchEnv :=
  ⟨some ⟨[(20220101, 5)], [], [], []⟩, none, [], [], none, true, true⟩

/-- Counterexample to C7 as stated: on a cache miss with a successful
primary fetch but empty secondary sources, the merged result does *not*
contain the `chain_tvl` column filled with a no-data marker — the merge of
an empty secondary frame is skipped entirely (lines 423–432 guard each
merge with `if not ...empty`), so the column is omitted and the column set
varies across assets. -/
theorem c7_schema_counterexample :
    "chain_tvl" ∉ (MainPipeline.fetch_and_cache_coin_history "aave" [("aave", "AAVE")]
        [] [] c7env ⟨[], []⟩).1.cols ∧
    (MainPipeline.fetch_and_cache_coin_history "aave" [("aave", "AAVE")]
        [] [] c7env ⟨[], []⟩).1.rows ≠ [] := by
  decide

namespace MainPipeline

/-- `chain_tvl` is a merged column exactly when the chain frame is
nonempty. -/
theorem mem_chain_tvl_iff (coin_id : String) (tm pm cm : List (String × String))
    (env : FetchEnv)
    (hp : (process_market_data_to_df env.primary coin_id tm).rows ≠ []) :
    "chain_tvl" ∈ (mergedFrameOf coin_id tm pm cm env).cols ↔
      (chainFrameOf coin_id tm cm env).rows ≠ [] := by
  have hbase := process_cols_of_nonempty env.primary coin_id tm hp
  have hbase_ct : "chain_tvl" ∉ (process_market_data_to_df env.primary coin_id tm).cols := by
    rcases hbase with hb | hb <;> rw [hb] <;> decide
  rw [mergedFrameOf_cols]
  simp only [List.mem_append]
  constructor
  · rintro (((hb | hch) | hpr) | hlcm)
    · exact absurd hb hbase_ct
    · by_cases hce : (chainFrameOf coin_id tm cm env).rows.isEmpty = true
      · rw [if_pos hce] at hch; simp at hch
      · exact fun hnil => hce (by simp [hnil])
    · exfalso
      by_cases hqe : (protoFrameOf coin_id tm pm env).rows.isEmpty = true
      · rw [if_pos hqe] at hpr; simp at hpr
      · rw [if_neg hqe] at hpr
        have := List.mem_of_mem_filter hpr
        simp at this
    · exfalso
      by_cases hle : (lcFrameOf coin_id tm env).rows.isEmpty = true
      · rw [if_pos hle] at hlcm; simp at hlcm
      · rw [if_neg hle] at hlcm
        have h2 := lc_cols_sub coin_id tm env _ (List.mem_of_mem_filter hlcm)
        simp at h2
  · intro hne
    left; left; right
    rw [if_neg (fun h => hne (List.isEmpty_iff.mp h))]
    simp

/-- `protocol_tvl` and `dex_volume` are merged columns exactly when the
protocol frame is nonempty. -/
theorem mem_proto_iff (coin_id : String) (tm pm cm : List (String × String))
    (env : FetchEnv)
    (hp : (process_market_data_to_df env.primary coin_id tm).rows ≠ []) :
    ("protocol_tvl" ∈ (mergedFrameOf coin_id tm pm cm env).cols ↔
      (protoFrameOf coin_id tm pm env).rows ≠ []) ∧
    ("dex_volume" ∈ (mergedFrameOf coin_id tm pm cm env).cols ↔
      (protoFrameOf coin_id tm pm env).rows ≠ []) := by
  have hbase := process_cols_of_nonempty env.primary coin_id tm hp
  have hbase_pt : "protocol_tvl" ∉ (process_market_data_to_df env.primary coin_id tm).cols := by
    rcases hbase with hb | hb <;> rw [hb] <;> decide
  have hbase_dv : "dex_volume" ∉ (process_market_data_to_df env.primary coin_id tm).cols := by
    rcases hbase with hb | hb <;> rw [hb] <;> decide
  have hdc : (protoFrameOf coin_id tm pm env).rows ≠ [] →
      ["protocol_tvl", "dex_volume"].filter
        (fun c => (protoFrameOf coin_id tm pm env).cols.contains c) =
        ["protocol_tvl", "dex_volume"] := by
    intro hne
    rcases proto_cols_of_nonempty coin_id tm pm env hne with hq | hq <;> rw [hq] <;> decide
  constructor <;>
  · rw [mergedFrameOf_cols]
    simp only [List.mem_append]
    constructor
    · rintro (((hb | hch) | hpr) | hlcm)
      · first
          | exact absurd hb hbase_pt
          | exact absurd hb hbase_dv
      · exfalso
        by_cases hce : (chainFrameOf coin_id tm cm env).rows.isEmpty = true
        · rw [if_pos hce] at hch; simp at hch
        · rw [if_neg hce] at hch; simp at hch
      · by_cases hqe : (protoFrameOf coin_id tm pm env).rows.isEmpty = true
        · rw [if_pos hqe] at hpr; simp at hpr
        · exact fun hnil => hqe (by simp [hnil])
      · exfalso
        by_cases hle : (lcFrameOf coin_id tm env).rows.isEmpty = true
        · rw [if_pos hle] at hlcm; simp at hlcm
        · rw [if_neg hle] at hlcm
          have h2 := lc_cols_sub coin_id tm env _ (List.mem_of_mem_filter hlcm)
          simp at h2
    · intro hne
      left; right
      rw [if_neg (fun h => hne (List.isEmpty_iff.mp h)), hdc hne]
      simp

/-- `lc_galaxy_score` is a merged column exactly when the LunarCrush frame
carries it. -/
theorem mem_galaxy_iff (coin_id : String) (tm pm cm : List (String × String))
    (env : FetchEnv)
    (hp : (process_market_data_to_df env.primary coin_id tm).rows ≠ []) :
    "lc_galaxy_score" ∈ (mergedFrameOf coin_id tm pm cm env).cols ↔
      "lc_galaxy_score" ∈ (lcFrameOf coin_id tm env).cols := by
  have hbase := process_cols_of_nonempty env.primary coin_id tm hp
  have hbase_lg : "lc_galaxy_score" ∉ (process_market_data_to_df env.primary coin_id tm).cols := by
    rcases hbase with hb | hb <;> rw [hb] <;> decide
  rw [mergedFrameOf_cols]
  simp only [List.mem_append]
  constructor
  · rintro (((hb | hch) | hpr) | hlcm)
    · exact absurd hb hbase_lg
    · exfalso
      by_cases hce : (chainFrameOf coin_id tm cm env).rows.isEmpty = true
      · rw [if_pos hce] at hch; simp at hch
      · rw [if_neg hce] at hch; simp at hch
    · exfalso
      by_cases hqe : (protoFrameOf coin_id tm pm env).rows.isEmpty = true
      · rw [if_pos hqe] at hpr; simp at hpr
      · rw [if_neg hqe] at hpr
        have := List.mem_of_mem_filter hpr
        simp at this
    · by_cases hle : (lcFrameOf coin_id tm env).rows.isEmpty = true
      · rw [if_pos hle] at hlcm; simp at hlcm
      · rw [if_neg hle] at hlcm
        exact (List.mem_filter.mp hlcm).1
  · intro hmem
    right
    rw [if_neg (fun h => lc_rows_of_galaxy coin_id tm env hmem (List.isEmpty_iff.mp h))]
    exact List.mem_filter.mpr ⟨hmem, by decide⟩

end MainPipeline

/-- C7 (amended) — Merged schema varies with source availability: for every
asset fetched on a cache miss with a successful primary fetch, the merged
result is `mergedFrameOf`, and a secondary source's columns appear in it
precisely when that source returned a nonempty processed frame
(`chain_tvl` iff the chain frame is nonempty; `protocol_tvl` and
`dex_volume` iff the protocol frame is nonempty; `lc_galaxy_score` iff the
LunarCrush frame carries it); columns of failed or empty secondary sources
are omitted rather than filled with a no-data marker, so the column set is
not identical across assets. -/
theorem c7_schema_amended (coin_id : String) (tm pm cm : List (String × String))
    (env : MainPipeline.FetchEnv) (s : MainPipeline.CacheState)
    (hl : s.localFiles.lookup ("coin_history/" ++ coin_id ++ ".parquet") = none)
    (hg : s.gcsBlobs.lookup ("coin_history/" ++ coin_id ++ ".parquet") = none)
    (hp : (MainPipeline.process_market_data_to_df env.primary coin_id tm).rows ≠ []) :
    (MainPipeline.fetch_and_cache_coin_history coin_id tm pm cm env s).1 =
      MainPipeline.mergedFrameOf coin_id tm pm cm env ∧
    ("chain_tvl" ∈ (MainPipeline.mergedFrameOf coin_id tm pm cm env).cols ↔
      (MainPipeline.chainFrameOf coin_id tm cm env).rows ≠ []) ∧
    ("protocol_tvl" ∈ (MainPipeline.mergedFrameOf coin_id tm pm cm env).cols ↔
      (MainPipeline.protoFrameOf coin_id tm pm env).rows ≠ []) ∧
    ("dex_volume" ∈ (MainPipeline.mergedFrameOf coin_id tm pm cm env).cols ↔
      (MainPipeline.protoFrameOf coin_id tm pm env).rows ≠ []) ∧
    ("lc_galaxy_score" ∈ (MainPipeline.mergedFrameOf coin_id tm pm cm env).cols ↔
      "lc_galaxy_score" ∈ (MainPipeline.lcFrameOf coin_id tm env).cols) := by
  refine ⟨?_, MainPipeline.mem_chain_tvl_iff coin_id tm pm cm env hp,
    (MainPipeline.mem_proto_iff coin_id tm pm cm env hp).1,
    (MainPipeline.mem_proto_iff coin_id tm pm cm env hp).2,
    MainPipeline.mem_galaxy_iff coin_id tm pm cm env hp⟩
  unfold MainPipeline.fetch_and_cache_coin_history
  simp [MainPipeline.GCSCachingManager.get, hl, hg, List.isEmpty_eq_false.mpr hp,
    apply_ite Prod.fst]

/-- The environment of the C7 amended witness: primary and protocol TVL
data present, chain and DEX and LunarCrush absent. -/
def c7wenv : MainPipeline.FetchEnv :=
  ⟨some ⟨[(20220101, 5)], [(20220101, 2)], [(20220101, 9)], []⟩,
    none, [(20220101, 3)], [], none, true, true⟩

/-- Witness for the amended C7 at a concrete input: the protocol source
returned data, so `protocol_tvl` is a column of the merged frame. -/
theorem c7_schema_amended_witness :
    "protocol_tvl" ∈ (MainPipeline.mergedFrameOf "uniswap" [("uniswap", "UNI")]
        [("uniswap", "uniswap")] [] c7wenv).cols ↔
      (MainPipeline.protoFrameOf "uniswap" [("uniswap", "UNI")]
        [("uniswap", "uniswap")] c7wenv).rows ≠ [] :=
  (c7_schema_amended "uniswap" [("uniswap", "UNI")] [("uniswap", "uniswap")] [] c7wenv
    ⟨[], []⟩ (by decide) (by decide) (by decide)).2.2.1

namespace MainPipeline

/-- `START_DATE = '2022-01-01'` of `main_pipeline.py`, as the numeric date
value carried in the `date` cells. -/
def START_DATE : ℚ := 20220101

/-- `row['date'] <= bound`: true only for a numeric date cell satisfying
the bound, as pandas comparisons with NaN are false (a non-date row never
passes a date filter). -/
def dateLeCell (row : List (String × CellVal)) (bound : ℚ) : Bool :=
  match cellOf row "date" with
  | .num v => decide (v ≤ bound)
  | _ => false

/-- `master_df['date'] >= pd.to_datetime(START_DATE)` (line 524), per row. -/
def dateGeStart (row : List (String × CellVal)) : Bool :=
  match cellOf row "date" with
  | .num v => decide (START_DATE ≤ v)
  | _ => false

/-- Stage 2 (lines 507–516): for each period of the universe, in order, and
each coin of its list having a fetched history, the cumulative slice of
that history with `date <= period_date`. -/
def sliceFrames (univ : List (Nat × List String))
    (histories : List (String × Frame)) : List Frame :=
  univ.flatMap (fun pu =>
    pu.2.filterMap (fun c =>
      (histories.lookup c).map (fun f =>
        ⟨f.cols, f.rows.filter (fun r => dateLeCell r (pu.1 : ℚ))⟩)))

/-- The column union of `pd.concat`, in order of first appearance. -/
def unionCols (frames : List Frame) : List String :=
  frames.foldl (fun acc f => acc ++ f.cols.filter (fun c => !acc.contains c)) []

/-- `drop_duplicates(subset=key, keep='last')`: keep a row only when no
later row shares its key. -/
def keepLast {α κ : Type} [DecidableEq κ] (key : α → κ) : List α → List α
  | [] => []
  | x :: xs =>
    if xs.any (fun y => decide (key y = key x)) then keepLast key xs
    else x :: keepLast key xs

/-- The wrapped-token aliasing map of line 528. -/
def canonical_map : List (String × String) :=
  [("binance-peg-weth", "weth"), ("wrapped-steth", "staked-ether"),
   ("wrapped-bitcoin", "bitcoin")]

/-- `master_df['coin_id'].map(canonical_map).fillna(master_df['coin_id'])`
on one cell (line 529): a NaN id stays NaN under `map` and `fillna`
restores the original cell. -/
def canonCell : CellVal → CellVal
  | .str c => .str ((canonical_map.lookup c).getD c)
  | v => v

/-- The `['coin_id', 'date']` dedup key of line 526 (pandas treats equal
NaN cells as duplicates, as does `Option`/`CellVal` equality here). -/
def rawKey (r : List (String × CellVal)) : Option CellVal × Option CellVal :=
  (r.lookup "coin_id", r.lookup "date")

/-- The `['canonical_id', 'date']` dedup key of line 530. -/
def canonKey (r : List (String × CellVal)) : Option CellVal × Option CellVal :=
  (r.lookup "canonical_id", r.lookup "date")

/-- Strict cell order used by the final sort: numeric and string cells by
their value, NaN last; after the canonical dedup the sort keys are unique,
so any correct comparison-sort produces the same row order as pandas. -/
def cellLtB : CellVal → CellVal → Bool
  | .num a, .num b => decide (a < b)
  | .str a, .str b => decide (a.data < b.data)
  | .num _, .na => true
  | .str _, .na => true
  | _, _ => false

/-- `sort_values(by=['canonical_id', 'date'])` (line 531): lexicographic on
the two key cells. -/
def sortLeB (r1 r2 : List (String × CellVal)) : Bool :=
  if cellLtB (cellOf r1 "canonical_id") (cellOf r2 "canonical_id") then true
  else if cellLtB (cellOf r2 "canonical_id") (cellOf r1 "canonical_id") then false
  else !cellLtB (cellOf r2 "date") (cellOf r1 "date")

/-- `pd.concat(all_period_data)` (line 522): rows in order; columns align
by name (a row reads NaN in columns it lacks). -/
def combinedRows (slices : List Frame) : List (List (String × CellVal)) :=
  (slices.map Frame.rows).flatten

/-- Line 524: keep rows dated on or after `START_DATE`. -/
def startFilteredRows (slices : List Frame) : List (List (String × CellVal)) :=
  (combinedRows slices).filter dateGeStart

/-- Line 526: first dedup, keyed on `(coin_id, date)`, keep-last. -/
def dedupRawRows (slices : List Frame) : List (List (String × CellVal)) :=
  keepLast rawKey (startFilteredRows slices)

/-- Line 529: append the `canonical_id` column. -/
def canonRows (slices : List Frame) : List (List (String × CellVal)) :=
  (dedupRawRows slices).map
    (fun r => r ++ [("canonical_id", canonCell (cellOf r "coin_id"))])

/-- Line 530: second dedup, keyed on `(canonical_id, date)`, keep-last. -/
def dedupCanonRows (slices : List Frame) : List (List (String × CellVal)) :=
  keepLast canonKey (canonRows slices)

/-- Lines 521–532: the final combined, filtered, deduplicated, canonical,
sorted panel. -/
def assembleCombine (slices : List Frame) : Frame :=
  ⟨unionCols slices ++ ["canonical_id"],
    List.insertionSort (fun a b => sortLeB a b = true) (dedupCanonRows slices)⟩

/-- Lines 519–542: the artifact written by the run — `none` when
`all_period_data` is empty (the `else` branch prints `PROCESS FAILED` and
writes nothing), otherwise the assembled panel of line 537. -/
def finalArtifact (univ : List (Nat × List String))
    (histories : List (String × Frame)) : Option Frame :=
  if (sliceFrames univ histories).isEmpty then none
  else some (assembleCombine (sliceFrames univ histories))

/-- `keepLast` keeps a subsequence of its input. -/
theorem keepLast_sublist {α κ : Type} [DecidableEq κ] (key : α → κ) (l : List α) :
    (keepLast key l).Sublist l := by
  induction l with
  | nil => simp [keepLast]
  | cons x xs ih =>
    by_cases h : xs.any (fun y => decide (key y = key x)) = true
    · simp only [keepLast, h, if_true]
      exact ih.cons x
    · simp only [keepLast, h, if_false, Bool.false_eq_true]
      exact ih.cons₂ x

/-- After `keepLast`, all keys are distinct. -/
theorem keepLast_map_nodup {α κ : Type} [DecidableEq κ] (key : α → κ) (l : List α) :
    ((keepLast key l).map key).Nodup := by
  induction l with
  | nil => simp [keepLast]
  | cons x xs ih =>
    by_cases h : xs.any (fun y => decide (key y = key x)) = true
    · simpa only [keepLast, h, if_true] using ih
    · simp only [keepLast, h, if_false, Bool.false_eq_true, List.map_cons, List.nodup_cons]
      refine ⟨?_, ih⟩
      intro hm
      rcases List.mem_map.mp hm with ⟨y, hy, hky⟩
      have hyx : y ∈ xs := (keepLast_sublist key xs).subset hy
      have : xs.any (fun y => decide (key y = key x)) = true :=
        List.any_eq_true.mpr ⟨y, hyx, by simp [hky]⟩
      exact h this

/-- A row passing the start-date filter carries a numeric date at or after
`START_DATE`. -/
theorem dateGeStart_spec (r : List (String × CellVal)) (h : dateGeStart r = true) :
    ∃ q : ℚ, r.lookup "date" = some (.num q) ∧ START_DATE ≤ q := by
  unfold dateGeStart cellOf at h
  cases hl : r.lookup "date" with
  | none => rw [hl] at h; simp at h
  | some v =>
    rw [hl] at h
    cases v with
    | num q =>
      refine ⟨q, rfl, ?_⟩
      simpa using h
    | str s => simp at h
    | na => simp at h

/-- A key found in the left part of an appended association list is found
in the whole list with the same value. -/
theorem lookup_append_left {β : Type} (l t : List (String × β)) (k : String) (v : β)
    (h : l.lookup k = some v) : (l ++ t).lookup k = some v := by
  rw [List.lookup_append, h]
  rfl

end MainPipeline

/-- C2 — Uniqueness invariant: in the final assembled artifact, no two rows
share the same `(canonical_id, date)` pair: after the second keep-last
deduplication keyed on `(canonical_id, date)`, every key occurs exactly
once, and the final sort only permutes rows. -/
theorem c2_unique_canonical_date (univ : List (Nat × List String))
    (histories : List (String × MainPipeline.Frame)) (f : MainPipeline.Frame)
    (hf : MainPipeline.finalArtifact univ histories = some f) :
    (f.rows.map MainPipeline.canonKey).Nodup := by
  unfold MainPipeline.finalArtifact at hf
  by_cases hs : (MainPipeline.sliceFrames univ histories).isEmpty = true
  · rw [if_pos hs] at hf; cases hf
  · rw [if_neg hs] at hf
    injection hf with hf'
    rw [← hf']
    have hperm := List.perm_insertionSort (fun a b => MainPipeline.sortLeB a b = true)
      (MainPipeline.dedupCanonRows (MainPipeline.sliceFrames univ histories))
    exact ((hperm.map MainPipeline.canonKey).nodup_iff).mpr
      (MainPipeline.keepLast_map_nodup MainPipeline.canonKey
        (MainPipeline.canonRows (MainPipeline.sliceFrames univ histories)))

/-- The 2022-01 universe of the concrete assembly inputs. -/
def asmU : List (Nat × List String) := [(20220101, ["a"])]

/-- One cached history for the concrete assembly inputs. -/
def asmH : List (String × MainPipeline.Frame) :=
  [("a", ⟨["date", "coin_id"],
    [[("date", MainPipeline.CellVal.num 20220101), ("coin_id", MainPipeline.CellVal.str "a")]]⟩)]

/-- Witness for C2 at a concrete input. -/
theorem c2_unique_canonical_date_witness :
    (((MainPipeline.assembleCombine (MainPipeline.sliceFrames asmU asmH)).rows).map
      MainPipeline.canonKey).Nodup :=
  c2_unique_canonical_date asmU asmH
    (MainPipeline.assembleCombine (MainPipeline.sliceFrames asmU asmH)) (by decide)

/-- Counterexample to C8 as stated: with one universe period holding one
asset whose only cached row predates `START_DATE`, the slice list is
nonempty, so the `if all_period_data:` guard passes, the start-date filter
then removes every row, and the run *writes an artifact with zero rows*
instead of terminating with failure — exactly the case the claim excludes
(slices exist but every row is removed by subsequent filtering). -/
theorem c8_empty_artifact_counterexample :
    MainPipeline.finalArtifact [(20220101, ["a"])]
        [("a", ⟨["date", "coin_id", "close"],
          [[("date", MainPipeline.CellVal.num 20211231),
            ("coin_id", MainPipeline.CellVal.str "a"),
            ("close", MainPipeline.CellVal.num 1)]]⟩)] =
      some ⟨["date", "coin_id", "close", "canonical_id"], []⟩ := by
  decide

/-- C8 (amended) — Failure only on an empty slice list: the run terminates
reporting failure (writing no artifact) exactly when no (period, asset)
pair of the universe has a fetched history — then and only then is
`all_period_data` empty; otherwise an artifact is written even when every
row is removed by the start-date filter or deduplication, so an empty
(zero-row) final dataset file can be produced. -/
theorem c8_empty_amended (univ : List (Nat × List String))
    (histories : List (String × MainPipeline.Frame)) :
    MainPipeline.finalArtifact univ histories = none ↔
      ∀ pu ∈ univ, ∀ c ∈ pu.2, histories.lookup c = none := by
  unfold MainPipeline.finalArtifact
  constructor
  · intro h
    by_cases hs : (MainPipeline.sliceFrames univ histories).isEmpty = true
    · have hnil : MainPipeline.sliceFrames univ histories = [] := List.isEmpty_iff.mp hs
      unfold MainPipeline.sliceFrames at hnil
      rw [List.flatMap_eq_nil_iff] at hnil
      intro pu hpu c hc
      have h2 := hnil pu hpu
      rw [List.filterMap_eq_nil_iff] at h2
      exact Option.map_eq_none'.mp (h2 c hc)
    · rw [if_neg hs] at h
      cases h
  · intro hall
    have hnil : MainPipeline.sliceFrames univ histories = [] := by
      unfold MainPipeline.sliceFrames
      rw [List.flatMap_eq_nil_iff]
      intro pu hpu
      rw [List.filterMap_eq_nil_iff]
      intro c hc
      rw [hall pu hpu c hc]
      rfl
    rw [if_pos (by rw [hnil]; rfl)]

/-- Witness for the amended C8 at a concrete input: a universe whose only
asset has no fetched history produces no artifact. -/
theorem c8_empty_amended_witness :
    MainPipeline.finalArtifact [(20220101, ["a"])] [] = none ↔
      ∀ pu ∈ [((20220101 : Nat), ["a"])], ∀ c ∈ pu.2,
        (([] : List (String × MainPipeline.Frame)).lookup c = none) :=
  c8_empty_amended [(20220101, ["a"])] []

/-- C10 — Start-date floor: every row of the written final artifact carries
a numeric date at or after the configured start date 2022-01-01, even
though per-asset histories and the period slices may contain earlier dates:
the assembler filters on the start date before both deduplications and the
canonicalization, and those steps only drop rows or append the
`canonical_id` cell. -/
theorem c10_start_floor (univ : List (Nat × List String))
    (histories : List (String × MainPipeline.Frame)) (f : MainPipeline.Frame)
    (hf : MainPipeline.finalArtifact univ histories = some f) :
    ∀ r ∈ f.rows, ∃ q : ℚ,
      r.lookup "date" = some (MainPipeline.CellVal.num q) ∧ MainPipeline.START_DATE ≤ q := by
  unfold MainPipeline.finalArtifact at hf
  by_cases hs : (MainPipeline.sliceFrames univ histories).isEmpty = true
  · rw [if_pos hs] at hf; cases hf
  · rw [if_neg hs] at hf
    injection hf with hf'
    intro r hr
    rw [← hf'] at hr
    have hperm := List.perm_insertionSort (fun a b => MainPipeline.sortLeB a b = true)
      (MainPipeline.dedupCanonRows (MainPipeline.sliceFrames univ histories))
    have hr4 : r ∈ MainPipeline.dedupCanonRows (MainPipeline.sliceFrames univ histories) :=
      hperm.mem_iff.mp hr
    have hr3 : r ∈ MainPipeline.canonRows (MainPipeline.sliceFrames univ histories) :=
      (MainPipeline.keepLast_sublist MainPipeline.canonKey _).subset hr4
    rcases List.mem_map.mp hr3 with ⟨r2, hr2, rfl⟩
    have hr1 : r2 ∈ MainPipeline.startFilteredRows (MainPipeline.sliceFrames univ histories) :=
      (MainPipeline.keepLast_sublist MainPipeline.rawKey _).subset hr2
    have hge := (List.mem_filter.mp hr1).2
    rcases MainPipeline.dateGeStart_spec r2 hge with ⟨q, hq, hle⟩
    exact ⟨q, MainPipeline.lookup_append_left _ _ _ _ hq, hle⟩

/-- Witness for C10 at a concrete input: the single surviving row of the
concrete assembly carries date 2022-01-01. -/
theorem c10_start_floor_witness :
    ∃ q : ℚ,
      ([("date", MainPipeline.CellVal.num 20220101),
        ("coin_id", MainPipeline.CellVal.str "a"),
        ("canonical_id", MainPipeline.CellVal.str "a")] :
          List (String × MainPipeline.CellVal)).lookup "date" =
        some (MainPipeline.CellVal.num q) ∧ MainPipeline.START_DATE ≤ q :=
  c10_start_floor asmU asmH
    (MainPipeline.assembleCombine (MainPipeline.sliceFrames asmU asmH)) (by decide)
    [("date", MainPipeline.CellVal.num 20220101),
     ("coin_id", MainPipeline.CellVal.str "a"),
     ("canonical_id", MainPipeline.CellVal.str "a")] (by decide)

